import Mathlib

/-!
Verification development for the grocery-shopping assistant pipeline.

The Python sources are shallowly embedded: Python `float` money amounts are
modelled as `ℚ`, Python strings as Lean `String` (with helper functions
mirroring the Python string methods used by the code), fallible external
calls (the Mistral text generator, the SerpAPI product search) as explicit
`Except`-valued oracles that are quantified over, and each agent's
`execute` method as a pure state-transformation function, with the
mutation-before-exception semantics of the Python `try`/`except` blocks
made explicit by threading intermediate states.
-/

namespace Grocery

/-! ### Python string helpers (List Char based models of str methods) -/

/-- Python `str.lower()` (ASCII model). -/
def pyLower (s : String) : String := String.mk (s.toList.map Char.toLower)

/-- Python `needle in hay` substring test. -/
def pyContains (needle hay : String) : Bool :=
  decide (needle.toList <:+: hay.toList)

/-- Core of Python `str.replace`: replace every non-overlapping occurrence
of `old` (non-empty) by `new`, scanning left to right. Structural
recursion on a fuel that each step strictly outpaces (every step consumes
at least one input character), so fuel equal to the input length makes
the fuel guard unreachable. -/
def listReplaceGo (old new : List Char) : Nat → List Char → List Char
  | 0, l => l
  | _fuel + 1, [] => []
  | fuel + 1, c :: rest =>
    if old.isPrefixOf (c :: rest) ∧ old ≠ [] then
      new ++ listReplaceGo old new fuel ((c :: rest).drop old.length)
    else
      c :: listReplaceGo old new fuel rest

/-- `listReplaceGo` at adequate fuel. -/
def listReplace (old new l : List Char) : List Char :=
  listReplaceGo old new l.length l

/-- Python `s.replace(old, new)`. -/
def pyReplace (s old new : String) : String :=
  String.mk (listReplace old.toList new.toList s.toList)

/-- Drop leading whitespace. -/
def ltrim (l : List Char) : List Char := l.dropWhile Char.isWhitespace

/-- Python `str.strip()` on the character-list level. -/
def pyStripL (l : List Char) : List Char := ((ltrim l).reverse.dropWhile Char.isWhitespace).reverse

/-- Python `str.strip()`. -/
def pyStrip (s : String) : String := String.mk (pyStripL s.toList)

/-- Python `str` of a bool (`True` / `False`). -/
def pyBool (b : Bool) : String := if b then "True" else "False"

/-- Round-half-even used by Python's fixed-point float formatting. -/
def roundHalfEven (q : ℚ) : ℤ :=
  let f := ⌊q⌋
  let r := q - (f : ℚ)
  if r < 1/2 then f else if 1/2 < r then f + 1 else if f % 2 = 0 then f else f + 1

/-- Model of the Python format spec `:.2f` on a money amount. -/
def fmt2 (q : ℚ) : String :=
  let n := roundHalfEven (q * 100)
  let a := n.natAbs
  let sign := if n < 0 then "-" else ""
  let frac := a % 100
  sign ++ toString (a / 100) ++ "." ++ (if frac < 10 then "0" else "") ++ toString frac

/-- Model of Python `f"{q}"` on a number (display only; feeds prompts). -/
def ratRepr (q : ℚ) : String := toString q

/-! ### Data model (`src/state.py`) -/

/-- `state.ShoppingItem`; `from_walmart` models the `_from_walmart`
attribute `product_finder_agent.py` sets on items built from live search
results. -/
structure ShoppingItem where
  name : String
  quantity : String
  estimated_price : ℚ
  category : String := "general"
  from_walmart : Bool := false
deriving DecidableEq, Repr

/-- Input value of the `instructions` field before the pydantic validator
`Recipe.convert_instructions_to_string` runs (JSON null, list of steps, or
a plain string). -/
inductive InstrVal where
  | null
  | ofList (xs : List String)
  | ofString (s : String)
deriving DecidableEq, Repr

/-- Prefixes the validator looks for to decide whether steps are already
numbered (`state.py` line 34). -/
def alreadyNumberedPrefixes : List String := ["1.", "2.", "3.", "Step 1", "Step 2"]

/-- `item.strip().startswith(('1.', '2.', '3.', 'Step 1', 'Step 2'))`. -/
def startsWithAnyNumbered (s : String) : Bool :=
  alreadyNumberedPrefixes.any (fun p => p.toList.isPrefixOf (pyStripL s.toList))

/-- `state.Recipe.convert_instructions_to_string` (pydantic pre-validator). -/
def convert_instructions_to_string : InstrVal → String
  | .null => "No instructions provided."
  | .ofList xs =>
    if xs.length > 0 then
      if (xs.take 3).any startsWithAnyNumbered then
        String.intercalate "\n" xs
      else
        String.intercalate "\n" (xs.enum.map (fun p => toString (p.1 + 1) ++ ". " ++ p.2))
    else "No instructions provided."
  | .ofString s => s

/-- `state.Recipe` after validation (the validator always leaves
`instructions` a string). -/
structure Recipe where
  name : String
  ingredients : List String
  servings : ℤ
  instructions : String := "No instructions provided."
deriving DecidableEq, Repr

/-- `state.ShoppingState`. -/
structure ShoppingState where
  user_request : String
  budget : Option ℚ
  people_count : ℤ
  plan : Option String
  recipe : Option Recipe
  ingredients : List String
  shopping_items : List ShoppingItem
  total_cost : ℚ
  final_list : Option String
  next_agent : String
  messages : List String
  errors : List String
  completed_agents : List String
deriving DecidableEq, Repr

/-- `state.create_initial_state`. -/
def create_initial_state (user_request : String) (budget : Option ℚ) (people_count : ℤ) : ShoppingState :=
  { user_request := user_request
    budget := budget
    people_count := people_count
    plan := none
    recipe := none
    ingredients := []
    shopping_items := []
    total_cost := 0
    final_list := none
    next_agent := "planner"
    messages := []
    errors := []
    completed_agents := [] }

/-- Sum of the estimated prices, as in
`sum(item.estimated_price for item in items)`. -/
def sumPrices (items : List ShoppingItem) : ℚ :=
  (items.map (·.estimated_price)).sum

/-! ### Base agent helpers (`src/agents/base_agent.py`) -/

/-- `BaseAgent.log_execution`. -/
def log_execution (name action : String) (s : ShoppingState) : ShoppingState :=
  { s with messages := s.messages ++ [name ++ ": " ++ action] }

/-- `BaseAgent.handle_error`. -/
def handle_error (name error : String) (s : ShoppingState) : ShoppingState :=
  { s with errors := s.errors ++ [name ++ ": " ++ error] }

/-- The list update performed by `BaseAgent.mark_completed`. -/
def completed_after (name : String) (l : List String) : List String :=
  if name ∈ l then l else l ++ [name]

/-- `BaseAgent.mark_completed`. -/
def mark_completed (name : String) (s : ShoppingState) : ShoppingState :=
  { s with completed_agents := completed_after name s.completed_agents }

/-- Outcome of one `self.llm.invoke(prompt)` call: `Except.error` models a
raised exception carried to the enclosing `except` block. -/
abbrev Gen := String → Except String String

/-! ### Budgeting agent (`src/agents/budgeting_agent.py`) -/

/-- Stable descending insertion of `x` into an (already processed) list:
`x` goes after every element whose price is at least `x`'s. -/
def insertDesc (acc : List ShoppingItem) (x : ShoppingItem) : List ShoppingItem :=
  match acc with
  | [] => [x]
  | y :: ys =>
    if x.estimated_price ≤ y.estimated_price then y :: insertDesc ys x
    else x :: y :: ys

/-- Left fold of `insertDesc` over the input order. -/
def sortByPriceDescAux : List ShoppingItem → List ShoppingItem → List ShoppingItem
  | acc, [] => acc
  | acc, x :: xs => sortByPriceDescAux (insertDesc acc x) xs

/-- `sorted(items, key=lambda x: x.estimated_price, reverse=True)`:
price-descending and stable (equal prices keep the original relative
order), which the insertion strategy above realizes. -/
def sorted_desc (items : List ShoppingItem) : List ShoppingItem :=
  sortByPriceDescAux [] items

/-- The `for i, item in enumerate(optimized_items): ...` scan in
`_optimize_for_budget`: find the first item whose single removal brings
the running total to at most the budget; return the list without it and
the decremented running total. -/
def findRemove (budget total : ℚ) : List ShoppingItem → Option (List ShoppingItem × ℚ)
  | [] => none
  | x :: xs =>
    if total - x.estimated_price ≤ budget then some (xs, total - x.estimated_price)
    else
      match findRemove budget total xs with
      | some (ys, t) => some (x :: ys, t)
      | none => none

/-- The `while current_total > budget and optimized_items:` loop of
`_optimize_for_budget`. Each iteration removes exactly one item, so fuel
equal to the list length makes the fuel guard unreachable. -/
def fitLoop (budget : ℚ) : Nat → List ShoppingItem → ℚ → List ShoppingItem × ℚ
  | 0, items, total => (items, total)
  | fuel + 1, items, total =>
    if total ≤ budget then (items, total)
    else
      match items with
      | [] => (items, total)
      | x :: xs =>
        match findRemove budget total (x :: xs) with
        | some (ys, t) => fitLoop budget fuel ys t
        | none => fitLoop budget fuel xs (total - x.estimated_price)

/-- The sorting + removal loop of `_optimize_for_budget`, before the
substitution step, returning the surviving items and the running total. -/
def removal_phase_full (items : List ShoppingItem) (budget : ℚ) : List ShoppingItem × ℚ :=
  let sorted_items := sorted_desc items
  fitLoop budget sorted_items.length sorted_items (sumPrices sorted_items)

/-- Items surviving the removal loop of `_optimize_for_budget`. -/
def removal_phase (items : List ShoppingItem) (budget : ℚ) : List ShoppingItem :=
  (removal_phase_full items budget).1

/-- One item's pass through the `substitutions` table of
`_substitute_cheaper_alternatives` (dict order `beef`, `organic`,
`premium`; `break` after the first hit). -/
def substituteItem (item : ShoppingItem) : ShoppingItem :=
  if pyContains "beef" (pyLower item.name) then
    { item with estimated_price := 599/100, name := pyReplace item.name "Beef" "Chicken" }
  else if pyContains "organic" (pyLower item.name) then
    { item with estimated_price := item.estimated_price * (7/10),
                name := pyReplace item.name "Organic" "Regular" }
  else if pyContains "premium" (pyLower item.name) then
    { item with estimated_price := item.estimated_price * (8/10),
                name := pyReplace item.name "Premium" "Standard" }
  else item

/-- `BudgetingAgent._substitute_cheaper_alternatives` (the
`remaining_budget` argument is accepted and ignored, as in the source). -/
def substitute_cheaper_alternatives (items : List ShoppingItem) (_remaining_budget : ℚ) :
    List ShoppingItem :=
  items.map substituteItem

/-- `BudgetingAgent._optimize_for_budget`. -/
def optimize_for_budget (items : List ShoppingItem) (budget : ℚ) : List ShoppingItem :=
  let fitted := removal_phase_full items budget
  substitute_cheaper_alternatives fitted.1 (budget - fitted.2)

/-- Items summary fed into the budget-report prompt. -/
def itemsSummary (items : List ShoppingItem) : String :=
  String.intercalate ", "
    (items.map (fun it => it.name ++ " ($" ++ fmt2 it.estimated_price ++ ")"))

/-- Budget-report prompt (template text abbreviated: the prompt is
presentation only and every theorem quantifies over the generator). -/
def budgetPrompt (total_cost budget : ℚ) (items_list : String) : String :=
  "budget optimization expert Total Cost: $" ++ fmt2 total_cost ++ " Budget: $" ++
    ratRepr budget ++ " Items: " ++ items_list

/-- `BudgetingAgent.execute`. `if not budget:` is Python falsiness:
`None` or `0`. -/
def budgeting_execute (gen : Gen) (s : ShoppingState) : ShoppingState :=
  let s1 := log_execution "budgeting" "Analyzing budget constraints" s
  let total_cost := s1.total_cost
  let budgetFalsy := match s1.budget with
    | none => true
    | some b => b == 0
  if budgetFalsy then
    let s2 := { s1 with next_agent := "finalizer" }
    let s3 := mark_completed "budgeting" s2
    log_execution "budgeting" "No budget specified, proceeding without optimization" s3
  else
    let b := s1.budget.getD 0
    let s2 :=
      if total_cost > b then
        let optimized := optimize_for_budget s1.shopping_items b
        let s' := { s1 with shopping_items := optimized, total_cost := sumPrices optimized }
        log_execution "budgeting"
          ("Optimized list: $" ++ fmt2 s'.total_cost ++ " (was $" ++ fmt2 total_cost ++ ")") s'
      else
        log_execution "budgeting" ("Within budget, $" ++ fmt2 (b - total_cost) ++ " remaining") s1
    match gen (budgetPrompt s2.total_cost b (itemsSummary s2.shopping_items)) with
    | .ok report =>
      let s3 := { s2 with messages := s2.messages ++ ["Budget Analysis: " ++ pyStrip report] }
      let s4 := { s3 with next_agent := "finalizer" }
      mark_completed "budgeting" s4
    | .error e =>
      let s3 := handle_error "budgeting" ("Budget analysis failed: " ++ e) s2
      { s3 with next_agent := "finalizer" }

/-! ### Planner agent (`src/agents/planner_agent.py`) -/

/-- Planner prompt (template text abbreviated; presentation only). -/
def plannerPrompt (user_request budget : String) (people_count : ℤ) : String :=
  "grocery shopping planner User Request: " ++ user_request ++ " Budget: $" ++ budget ++
    " People Count: " ++ toString people_count

/-- `PlannerAgent.execute`. -/
def planner_execute (gen : Gen) (s : ShoppingState) : ShoppingState :=
  let s1 := log_execution "planner" "Creating execution plan" s
  let budget_str := match s1.budget with
    | some b => if b == 0 then "Not specified" else ratRepr b
    | none => "Not specified"
  match gen (plannerPrompt s1.user_request budget_str s1.people_count) with
  | .error e =>
    { handle_error "planner" ("Failed to create plan: " ++ e) s1 with next_agent := "error" }
  | .ok resp =>
    let plan := pyStrip resp
    let s2 := { s1 with plan := some plan, next_agent := "recipe" }
    let s3 := mark_completed "planner" s2
    log_execution "planner" ("Plan created: " ++ String.mk (plan.toList.take 100) ++ "...") s3

/-! ### Recipe agent (`src/agents/recipe_agent.py`) -/

/-- Outcome of the inner `try` of `RecipeAgent.execute` (code-fence
cleaning, `json.loads`, instruction fix-ups and the pydantic `Recipe`
construction, which consume the raw generator text): `parsed` is a
successful parse, `softError` a `JSONDecodeError`/`TypeError`/`KeyError`
(triggering the simple-format fallback call), `hardError` any other
exception (propagating to the outer `except`). -/
inductive JsonParse where
  | parsed (r : Recipe)
  | softError
  | hardError (msg : String)

/-- Recipe prompt (template text abbreviated; presentation only). -/
def recipePrompt (user_request : String) (people_count : ℤ) (plan : String) : String :=
  "recipe expert User Request: " ++ user_request ++ " People Count: " ++
    toString people_count ++ " Plan: " ++ plan

/-- Simple-format recipe prompt (presentation only). -/
def simpleRecipePrompt (user_request : String) (people_count : ℤ) : String :=
  "Create a simple recipe for: " ++ user_request ++ " For " ++ toString people_count ++ " people."

/-- Accumulator of the line scan in `RecipeAgent._get_simple_recipe_format`. -/
structure SimpleAcc where
  name : String
  ingredients : List String
  instructions : String

/-- One line of the fixed-label parse in `_get_simple_recipe_format`. -/
def simpleRecipeLine (acc : SimpleAcc) (line0 : String) : SimpleAcc :=
  let line := pyStrip line0
  if line.startsWith "RECIPE_NAME:" then
    { acc with name := pyStrip (pyReplace line "RECIPE_NAME:" "") }
  else if line.startsWith "INGREDIENTS:" then
    let t := pyStrip (pyReplace line "INGREDIENTS:" "")
    { acc with ingredients := (t.splitOn ",").map pyStrip }
  else if line.startsWith "INSTRUCTIONS:" then
    { acc with instructions := pyStrip (pyReplace line "INSTRUCTIONS:" "") }
  else acc

/-- `RecipeAgent._get_simple_recipe_format`: both its internal failure
modes surface as the single `ValueError` message raised at its end. -/
def get_simple_recipe_format (gen : Gen) (s : ShoppingState) : Except String Recipe :=
  match gen (simpleRecipePrompt s.user_request s.people_count) with
  | .error _ => .error "Mistral API connection required for recipe generation"
  | .ok resp =>
    let lines := (pyStrip resp).splitOn "\n"
    let acc := lines.foldl simpleRecipeLine ⟨"", [], ""⟩
    if acc.name = "" ∨ acc.ingredients = [] then
      .error "Mistral API connection required for recipe generation"
    else
      .ok { name := acc.name
            ingredients := acc.ingredients
            servings := s.people_count
            instructions :=
              if acc.instructions = "" then "No specific instructions provided."
              else acc.instructions }

/-- `RecipeAgent.execute`; `jp` abstracts the JSON parsing pipeline of the
inner `try` (see `JsonParse`). -/
def recipe_execute (gen : Gen) (jp : String → JsonParse) (s : ShoppingState) : ShoppingState :=
  let s1 := log_execution "recipe" "Finding suitable recipe via Mistral API" s
  let planText := match s1.plan with
    | some p => if p = "" then "General meal planning" else p
    | none => "General meal planning"
  let recipeErr := fun (msg : String) (st : ShoppingState) =>
    let e1 := handle_error "recipe" ("Failed to find recipe via Mistral API: " ++ msg) st
    { e1 with next_agent := "error",
              errors := e1.errors ++ ["Recipe agent requires working Mistral API connection"] }
  match gen (recipePrompt s1.user_request s1.people_count planText) with
  | .error e => recipeErr e s1
  | .ok resp0 =>
    let response := pyStrip resp0
    let afterParse : Except String (Recipe × Bool) :=
      match jp response with
      | .parsed r => .ok (r, true)
      | .softError =>
        match get_simple_recipe_format gen s1 with
        | .ok r => .ok (r, false)
        | .error m => .error m
      | .hardError m => .error m
    match afterParse with
    | .error m => recipeErr m s1
    | .ok (r, viaJson) =>
      let s2 := if viaJson then
          log_execution "recipe" ("Successfully parsed recipe: " ++ r.name) s1
        else s1
      if r.name = "" ∨ r.ingredients = [] then recipeErr "Recipe missing required fields" s2
      else
        let s3 := { s2 with recipe := some r, ingredients := r.ingredients,
                            next_agent := "product_finder" }
        let s4 := mark_completed "recipe" s3
        log_execution "recipe"
          ("Recipe found: " ++ r.name ++ " with " ++ toString r.ingredients.length ++
            " ingredients") s4

/-! ### Product finder agent (`src/agents/product_finder_agent.py`) -/

/-- Configuration derived from the environment at agent construction
(`SERPAPI_KEY` presence). -/
structure PFConfig where
  use_real_store : Bool

/-- Outcome of a whole ingredient-mapping pass (`_get_walmart_products`
or `_api_based_mapping`): both consume external network/generator data,
so they are abstracted as oracles; `Except.error` models a raised
exception. -/
abbrev Mapper := List String → Except String (List ShoppingItem)

/-- `ProductFinderAgent.execute`; `walmart` abstracts
`_get_walmart_products` (which never raises: it catches per-ingredient
failures internally) and `mistral` abstracts `_api_based_mapping`. -/
def product_finder_execute (cfg : PFConfig) (walmart mistral : Mapper) (s : ShoppingState) :
    ShoppingState :=
  let s1 := log_execution "product_finder"
    ("Mapping ingredients to products (SerpAPI: " ++ pyBool cfg.use_real_store ++ ")") s
  if s1.ingredients = [] then
    { handle_error "product_finder" "No ingredients found to map" s1 with next_agent := "error" }
  else
    let mapped : Except String (List ShoppingItem × Bool) :=
      if cfg.use_real_store then
        match walmart s1.ingredients with
        | .ok its =>
          if its ≠ [] then
            .ok (its, true)
          else
            match mistral s1.ingredients with
            | .ok its2 => .ok (its2, false)
            | .error e => .error e
        | .error _ =>
          match mistral s1.ingredients with
          | .ok its2 => .ok (its2, false)
          | .error e => .error e
      else
        match mistral s1.ingredients with
        | .ok its2 => .ok (its2, false)
        | .error e => .error e
    match mapped with
    | .error e =>
      let s2 := handle_error "product_finder" ("Failed to map products: " ++ e) s1
      { s2 with next_agent := "error",
                errors := s2.errors ++ ["Product finder failed - check API connections"] }
    | .ok (its, viaWalmart) =>
      let s2 := if viaWalmart then
          log_execution "product_finder"
            ("Found " ++ toString its.length ++ " products via Walmart") s1
        else s1
      if its = [] then
        let s3 := handle_error "product_finder" "Failed to map products: Failed to map any products" s2
        { s3 with next_agent := "error",
                  errors := s3.errors ++ ["Product finder failed - check API connections"] }
      else
        let s3 := { s2 with shopping_items := its, total_cost := sumPrices its,
                            next_agent := "budgeting" }
        let s4 := mark_completed "product_finder" s3
        let ds := if cfg.use_real_store ∧ its.any (·.from_walmart) then "Walmart (SerpAPI)"
                  else "Mistral AI estimates"
        log_execution "product_finder"
          ("Mapped " ++ toString its.length ++ " products via " ++ ds ++ ", total: $" ++
            fmt2 (sumPrices its)) s4

/-! ### Finalizer agent (`src/agents/finalizer_agent.py`) -/

/-- `FinalizerAgent._organize_by_category`: group by category, insertion
order of first appearance (Python dict order). -/
def organize_by_category (items : List ShoppingItem) : List (String × List ShoppingItem) :=
  items.foldl
    (fun acc it =>
      if acc.any (fun p => p.1 == it.category) then
        acc.map (fun p => if p.1 == it.category then (p.1, p.2 ++ [it]) else p)
      else acc ++ [(it.category, [it])])
    []

/-- Python `str.upper()` (ASCII model). -/
def pyUpper (s : String) : String := String.mk (s.toList.map Char.toUpper)

/-- `FinalizerAgent._format_items_for_prompt`. -/
def format_items_for_prompt (cats : List (String × List ShoppingItem)) : String :=
  String.intercalate "\n"
    (cats.flatMap (fun p =>
      ("\n" ++ pyUpper p.1 ++ ":") ::
        p.2.map (fun it =>
          "  - " ++ it.name ++ " (" ++ it.quantity ++ ") - $" ++ fmt2 it.estimated_price)))

/-- Final-list prompt (template text abbreviated; presentation only). -/
def finalPrompt (recipe_name items_list : String) (total_cost : ℚ) (budget : String)
    (people_count : ℤ) : String :=
  "final shopping list Recipe: " ++ recipe_name ++ " Serves: " ++ toString people_count ++
    " Total Cost: $" ++ fmt2 total_cost ++ " Budget: " ++ budget ++ " Items: " ++ items_list

/-- `FinalizerAgent._create_fallback_list`. `if state.get("budget"):` is
Python falsiness (`None` or `0` skip the annotation). -/
def create_fallback_list (s : ShoppingState) : String :=
  let header := "SHOPPING LIST\n" ++ String.mk (List.replicate 50 '=') ++ "\n\n"
  if s.shopping_items ≠ [] then
    let body := String.join
      (s.shopping_items.enum.map (fun p =>
        toString (p.1 + 1) ++ ". " ++ p.2.name ++ " (" ++ p.2.quantity ++ ") - $" ++
          fmt2 p.2.estimated_price ++ "\n"))
    let t := header ++ body ++ "\nTOTAL: $" ++ fmt2 s.total_cost ++ "\n"
    match s.budget with
    | some b =>
      if b == 0 then t
      else if s.total_cost ≤ b then t ++ "✓ Within budget ($" ++ fmt2 b ++ ")\n"
      else t ++ "⚠ Over budget by $" ++ fmt2 (s.total_cost - b) ++ "\n"
    | none => t
  else header ++ "No items to display.\n"

/-- `FinalizerAgent.execute`. -/
def finalizer_execute (gen : Gen) (s : ShoppingState) : ShoppingState :=
  let s1 := log_execution "finalizer" "Creating final shopping list" s
  if s1.shopping_items = [] then
    let s2 := { s1 with final_list := some "No items found for shopping list.",
                        next_agent := "complete" }
    let s3 := mark_completed "finalizer" s2
    log_execution "finalizer" "Final shopping list created" s3
  else
    let budget_text := match s1.budget with
      | some b => if b == 0 then "No budget specified" else "$" ++ fmt2 b
      | none => "No budget specified"
    let recipe_name := match s1.recipe with
      | some r => r.name
      | none => "Custom meal"
    let items_text := format_items_for_prompt (organize_by_category s1.shopping_items)
    match gen (finalPrompt recipe_name items_text s1.total_cost budget_text s1.people_count) with
    | .ok resp =>
      let s2 := { s1 with final_list := some (pyStrip resp), next_agent := "complete" }
      let s3 := mark_completed "finalizer" s2
      log_execution "finalizer" "Final shopping list created" s3
    | .error e =>
      let s2 := handle_error "finalizer" ("Failed to create final list: " ++ e) s1
      { s2 with final_list := some (create_fallback_list s2), next_agent := "complete" }

/-! ### Graph (`src/graph.py`) -/

/-- `GroceryShoppingGraph._build_graph` compiles a linear chain with
unconditional edges `planner → recipe → product_finder → budgeting →
finalizer → END`; invoking it composes the five handlers in that fixed
order (the `next_agent` field is never consulted for routing). -/
def graph_invoke (gen : Gen) (jp : String → JsonParse) (cfg : PFConfig)
    (walmart mistral : Mapper) (s : ShoppingState) : ShoppingState :=
  finalizer_execute gen
    (budgeting_execute gen
      (product_finder_execute cfg walmart mistral
        (recipe_execute gen jp
          (planner_execute gen s))))

/-- `GroceryShoppingGraph.run` (the post-invoke bookkeeping on the
returned state; in this embedding `graph_invoke` is total, so the
`except` arm of `run` is unreachable). -/
def graph_run (gen : Gen) (jp : String → JsonParse) (cfg : PFConfig)
    (walmart mistral : Mapper) (s : ShoppingState) : ShoppingState :=
  let final := graph_invoke gen jp cfg walmart mistral s
  if 3 ≤ final.completed_agents.length then
    { final with messages := final.messages ++
        ["✅ Shopping list generated successfully via Mistral API"] }
  else
    { final with errors := final.errors ++ ["Workflow incomplete - check API connection"] }

/-! ### Spec-level formulation of the greedy removal step rule (§4.5) -/

/-- `fitKeep budget total it` is true when removing `it` alone does NOT
bring the running total to at most the budget (the item is kept by the
scan). -/
def fitKeep (budget total : ℚ) (it : ShoppingItem) : Bool :=
  ! decide (total - it.estimated_price ≤ budget)

/-- One iteration of the removal loop, written from the spec's words:
scan items in their current order and remove the first item whose single
removal would bring the running total (the sum of the current items) to
at most the budget; if no single removal achieves this, remove the item
at position 0 unconditionally. -/
def specRemoveOne (budget : ℚ) (items : List ShoppingItem) : List ShoppingItem :=
  match items.dropWhile (fitKeep budget (sumPrices items)) with
  | [] => items.tail
  | _ :: ys => items.takeWhile (fitKeep budget (sumPrices items)) ++ ys

/-- The spec's removal loop: repeat while the recomputed total exceeds
the budget and items remain. -/
def specFitLoop (budget : ℚ) : Nat → List ShoppingItem → List ShoppingItem
  | 0, items => items
  | fuel + 1, items =>
    if sumPrices items > budget ∧ items ≠ [] then
      specFitLoop budget fuel (specRemoveOne budget items)
    else items

/-- The spec's removal phase: stable price-descending sort of a working
copy, then the removal loop. -/
def spec_removal_phase (items : List ShoppingItem) (budget : ℚ) : List ShoppingItem :=
  specFitLoop budget (sorted_desc items).length (sorted_desc items)

/-! ### Concrete inputs used by counterexamples and witnesses -/

/-- A cheap beef item (price `1`). -/
def beefItem : ShoppingItem :=
  { name := "Beef", quantity := "1 lb", estimated_price := 1, category := "meat" }

/-- An expensive non-substitutable item. -/
def caviarItem : ShoppingItem :=
  { name := "Caviar", quantity := "1 jar", estimated_price := 10, category := "deli" }

/-- A cheap item whose name contains the `beef` substitution keyword. -/
def beefScrapsItem : ShoppingItem :=
  { name := "Beef Scraps", quantity := "1 lb", estimated_price := 1, category := "meat" }

/-- A Record over budget (`total_cost = 11 > budget = 3`) whose cheap
surviving item triggers the beef substitution. -/
def overBudgetState : ShoppingState :=
  { create_initial_state "dinner" (some 3) 4 with
      shopping_items := [caviarItem, beefScrapsItem], total_cost := 11 }

/-- A generator that always answers. -/
def genOk : Gen := fun _ => .ok "Looks good"

/-- A generator whose every call raises (total outage). -/
def genFailAll : Gen := fun _ => .error "ConnectionError"

/-- A JSON-parse oracle that always reports a `json.JSONDecodeError`. -/
def jpSoft : String → JsonParse := fun _ => .softError

/-- A fresh initial Record (no budget, empty ingredients). -/
def initState : ShoppingState := create_initial_state "pasta dinner" none 4

/-- A plain item with no substitution keyword. -/
def demoItem : ShoppingItem :=
  { name := "Milk", quantity := "1 gallon", estimated_price := 4, category := "dairy" }

/-- A Record with `budget = 0` and a strictly positive total. -/
def zeroBudgetState : ShoppingState :=
  { create_initial_state "milk run" (some 0) 4 with
      shopping_items := [demoItem], total_cost := 4 }

/-- The five stage handlers, with their oracles fixed. -/
def handlersList (gen : Gen) (jp : String → JsonParse) (cfg : PFConfig)
    (walmart mistral : Mapper) : List (ShoppingState → ShoppingState) :=
  [planner_execute gen, recipe_execute gen jp,
   product_finder_execute cfg walmart mistral,
   budgeting_execute gen, finalizer_execute gen]

/-- Run a sequence of stage-handler executions left to right. -/
def applySeq (hs : List (ShoppingState → ShoppingState)) (s : ShoppingState) : ShoppingState :=
  hs.foldl (fun st h => h st) s

/-! ## Theorems -/

attribute [local semireducible] Rat.add Rat.mul Rat.sub Rat.inv

/-! ### C6: recipe instruction normalization -/

lemma sumPrices_nil : sumPrices [] = 0 := rfl

lemma sumPrices_cons (x : ShoppingItem) (l : List ShoppingItem) :
    sumPrices (x :: l) = x.estimated_price + sumPrices l := by
  simp [sumPrices]

lemma sumPrices_append (l₁ l₂ : List ShoppingItem) :
    sumPrices (l₁ ++ l₂) = sumPrices l₁ + sumPrices l₂ := by
  simp [sumPrices]

lemma step1_prefix_strip {x : List Char} (h : ['S', 't', 'e', 'p', ' ', '1'] <+: x) :
    ['S', 't', 'e', 'p', ' ', '1'] <+: pyStripL x := by
  obtain ⟨t, ht⟩ := h
  subst ht
  unfold pyStripL ltrim
  rw [List.cons_append, List.dropWhile_cons]
  simp only [show 'S'.isWhitespace = false from rfl, Bool.false_eq_true, if_false]
  rw [show ('S' :: (['t', 'e', 'p', ' ', '1'] ++ t)) = ['S', 't', 'e', 'p', ' ', '1'] ++ t from rfl]
  rw [List.reverse_append, List.dropWhile_append]
  by_cases he : (t.reverse.dropWhile Char.isWhitespace).isEmpty
  · simp only [he, if_true]
    rw [show (['S', 't', 'e', 'p', ' ', '1'].reverse.dropWhile Char.isWhitespace)
          = ['S', 't', 'e', 'p', ' ', '1'].reverse from rfl]
    rw [List.reverse_reverse]
  · simp only [he, if_false, Bool.false_eq_true]
    rw [List.reverse_append, List.reverse_reverse]
    exact ⟨_, rfl⟩

lemma startsWithAnyNumbered_step1 {x : String}
    (h : ['S', 't', 'e', 'p', ' ', '1'] <+: pyStripL x.toList) :
    startsWithAnyNumbered x = true := by
  unfold startsWithAnyNumbered alreadyNumberedPrefixes
  simp only [List.any_cons, List.any_nil, Bool.or_eq_true]
  refine Or.inr (Or.inr (Or.inr (Or.inl ?_)))
  rw [show ("Step 1".toList) = ['S', 't', 'e', 'p', ' ', '1'] from rfl]
  rw [List.isPrefixOf_iff_prefix]
  exact h

/-- C6: constructing a Recipe with instructions `["Cook pasta", "Add sauce"]`
yields `"1. Cook pasta\n2. Add sauce"`; a list whose first element starts
with `"Step 1"` is joined with newlines unmodified; `None` becomes the
fixed placeholder sentence. -/
theorem C6_recipe_instruction_normalization :
    convert_instructions_to_string (.ofList ["Cook pasta", "Add sauce"]) =
      "1. Cook pasta\n2. Add sauce"
    ∧ (∀ (x : String) (xs : List String), ("Step 1".toList) <+: x.toList →
        convert_instructions_to_string (.ofList (x :: xs)) = String.intercalate "\n" (x :: xs))
    ∧ convert_instructions_to_string .null = "No instructions provided." := by
  refine ⟨by decide, ?_, rfl⟩
  intro x xs h
  have hx : startsWithAnyNumbered x = true := by
    refine startsWithAnyNumbered_step1 (step1_prefix_strip ?_)
    rw [show (['S', 't', 'e', 'p', ' ', '1'] : List Char) = "Step 1".toList from rfl]
    exact h
  unfold convert_instructions_to_string
  simp [List.take_succ_cons, List.any_cons, hx]

/-- Witness for C6 at a concrete already-numbered list. -/
theorem C6_recipe_instruction_normalization_witness :
    convert_instructions_to_string (.ofList ["Step 1: boil", "Step 2: serve"]) =
      String.intercalate "\n" ["Step 1: boil", "Step 2: serve"] :=
  C6_recipe_instruction_normalization.2.1 "Step 1: boil" ["Step 2: serve"] (by decide)

/-! ### C5: the greedy-removal step rule -/

lemma mem_insertDesc {a x : ShoppingItem} {acc : List ShoppingItem} :
    a ∈ insertDesc acc x ↔ a ∈ acc ∨ a = x := by
  induction acc with
  | nil => simp [insertDesc]
  | cons y ys ih =>
    by_cases hc : x.estimated_price ≤ y.estimated_price
    · simp only [insertDesc, if_pos hc, List.mem_cons, ih]
      tauto
    · simp only [insertDesc, if_neg hc, List.mem_cons]
      tauto

lemma pairwise_insertDesc {acc : List ShoppingItem} {x : ShoppingItem}
    (h : acc.Pairwise (fun a b => b.estimated_price ≤ a.estimated_price)) :
    (insertDesc acc x).Pairwise (fun a b => b.estimated_price ≤ a.estimated_price) := by
  induction acc with
  | nil => simp [insertDesc]
  | cons y ys ih =>
    rw [List.pairwise_cons] at h
    obtain ⟨hy, hys⟩ := h
    by_cases hc : x.estimated_price ≤ y.estimated_price
    · rw [show insertDesc (y :: ys) x = y :: insertDesc ys x from by
        simp [insertDesc, hc]]
      rw [List.pairwise_cons]
      refine ⟨fun z hz => ?_, ih hys⟩
      rcases mem_insertDesc.mp hz with hz | rfl
      · exact hy z hz
      · exact hc
    · rw [show insertDesc (y :: ys) x = x :: y :: ys from by
        simp [insertDesc, hc]]
      rw [List.pairwise_cons]
      refine ⟨fun z hz => ?_, List.pairwise_cons.mpr ⟨hy, hys⟩⟩
      rcases List.mem_cons.mp hz with rfl | hz
      · exact le_of_lt (not_le.mp hc)
      · exact le_trans (hy z hz) (le_of_lt (not_le.mp hc))

lemma pairwise_sortAux :
    ∀ (l acc : List ShoppingItem),
      acc.Pairwise (fun a b => b.estimated_price ≤ a.estimated_price) →
      (sortByPriceDescAux acc l).Pairwise (fun a b => b.estimated_price ≤ a.estimated_price)
  | [], _, h => h
  | x :: xs, acc, h => pairwise_sortAux xs (insertDesc acc x) (pairwise_insertDesc h)

lemma filter_insertDesc (p : ℚ) {acc : List ShoppingItem} (x : ShoppingItem)
    (h : acc.Pairwise (fun a b => b.estimated_price ≤ a.estimated_price)) :
    (insertDesc acc x).filter (fun it => decide (it.estimated_price = p)) =
      acc.filter (fun it => decide (it.estimated_price = p)) ++
        (if x.estimated_price = p then [x] else []) := by
  induction acc with
  | nil => by_cases hx : x.estimated_price = p <;> simp [insertDesc, hx]
  | cons y ys ih =>
    rw [List.pairwise_cons] at h
    obtain ⟨hy, hys⟩ := h
    by_cases hc : x.estimated_price ≤ y.estimated_price
    · rw [show insertDesc (y :: ys) x = y :: insertDesc ys x from by
        simp [insertDesc, hc]]
      rw [List.filter_cons, List.filter_cons, ih hys]
      by_cases hyp : y.estimated_price = p <;> simp [hyp]
    · rw [show insertDesc (y :: ys) x = x :: y :: ys from by
        simp [insertDesc, hc]]
      rw [List.filter_cons]
      by_cases hx : x.estimated_price = p
      · have hlt : y.estimated_price < x.estimated_price := not_le.mp hc
        have hnil : (y :: ys).filter (fun it => decide (it.estimated_price = p)) = [] := by
          rw [List.filter_eq_nil_iff]
          intro a ha
          have hle : a.estimated_price ≤ y.estimated_price := by
            rcases List.mem_cons.mp ha with rfl | ha
            · exact le_refl _
            · exact hy a ha
          have : a.estimated_price < p := hx ▸ lt_of_le_of_lt hle hlt
          simpa using ne_of_lt this
        rw [hnil]
        simp [hx]
      · simp [hx]

lemma filter_sortAux (p : ℚ) :
    ∀ (l acc : List ShoppingItem),
      acc.Pairwise (fun a b => b.estimated_price ≤ a.estimated_price) →
      (sortByPriceDescAux acc l).filter (fun it => decide (it.estimated_price = p)) =
        acc.filter (fun it => decide (it.estimated_price = p)) ++
          l.filter (fun it => decide (it.estimated_price = p)) := by
  intro l
  induction l with
  | nil => intro acc _; simp [sortByPriceDescAux]
  | cons x xs ih =>
    intro acc h
    rw [show sortByPriceDescAux acc (x :: xs) = sortByPriceDescAux (insertDesc acc x) xs from rfl]
    rw [ih _ (pairwise_insertDesc h), filter_insertDesc p x h, List.filter_cons]
    by_cases hx : x.estimated_price = p <;> simp [hx]

lemma findRemove_eq_scan (b total : ℚ) (l : List ShoppingItem) :
    findRemove b total l =
      match l.dropWhile (fitKeep b total) with
      | [] => none
      | y :: ys => some (l.takeWhile (fitKeep b total) ++ ys, total - y.estimated_price) := by
  induction l with
  | nil => rfl
  | cons x xs ih =>
    by_cases hx : total - x.estimated_price ≤ b
    · have hk : fitKeep b total x = false := by simp [fitKeep, hx]
      simp [findRemove, hx, List.dropWhile_cons, List.takeWhile_cons, hk]
    · have hk : fitKeep b total x = true := by simp [fitKeep, hx]
      rw [show findRemove b total (x :: xs) =
            match findRemove b total xs with
            | some (ys, t) => some (x :: ys, t)
            | none => none from by simp [findRemove, hx]]
      rw [ih, List.dropWhile_cons, List.takeWhile_cons]
      simp only [hk, if_true]
      cases xs.dropWhile (fitKeep b total) with
      | nil => rfl
      | cons y ys => simp

lemma findRemove_length (b total : ℚ) :
    ∀ {l ys : List ShoppingItem} {t : ℚ},
      findRemove b total l = some (ys, t) → ys.length + 1 = l.length := by
  intro l
  induction l with
  | nil => intro ys t h; simp [findRemove] at h
  | cons x xs ih =>
    intro ys t h
    by_cases hx : total - x.estimated_price ≤ b
    · simp only [findRemove, if_pos hx, Option.some.injEq, Prod.mk.injEq] at h
      rw [← h.1]
      simp
    · simp only [findRemove, if_neg hx] at h
      cases hf : findRemove b total xs with
      | none => rw [hf] at h; simp at h
      | some q =>
        obtain ⟨ys', t'⟩ := q
        rw [hf] at h
        simp only [Option.some.injEq, Prod.mk.injEq] at h
        rw [← h.1]
        have := ih hf
        simp only [List.length_cons]
        omega

lemma fitLoop_eq_specFitLoop (b : ℚ) :
    ∀ (fuel : Nat) (l : List ShoppingItem),
      fitLoop b fuel l (sumPrices l) =
        (specFitLoop b fuel l, sumPrices (specFitLoop b fuel l)) := by
  intro fuel
  induction fuel with
  | zero => intro l; rfl
  | succ n ih =>
    intro l
    by_cases hle : sumPrices l ≤ b
    · have hcond : ¬(sumPrices l > b ∧ l ≠ []) := by
        rintro ⟨hgt, -⟩
        exact absurd hle (not_le.mpr hgt)
      simp [fitLoop, specFitLoop, hle, if_neg hcond]
    · cases l with
      | nil =>
        have hcond : ¬(sumPrices ([] : List ShoppingItem) > b ∧ ([] : List ShoppingItem) ≠ []) := by
          rintro ⟨-, hne⟩
          exact hne rfl
        simp [fitLoop, specFitLoop, hle, if_neg hcond]
      | cons x xs =>
        have hgt : sumPrices (x :: xs) > b := not_le.mp hle
        have hcond : sumPrices (x :: xs) > b ∧ (x :: xs) ≠ [] := ⟨hgt, by simp⟩
        simp only [fitLoop, specFitLoop]
        rw [if_neg hle, if_pos hcond]
        rw [findRemove_eq_scan]
        cases hdrop : (x :: xs).dropWhile (fitKeep b (sumPrices (x :: xs))) with
        | nil =>
          have hs : specRemoveOne b (x :: xs) = xs := by
            simp [specRemoveOne, hdrop]
          have hxsum : sumPrices (x :: xs) - x.estimated_price = sumPrices xs := by
            rw [sumPrices_cons]; ring
          dsimp only
          rw [hs, hxsum]
          exact ih xs
        | cons y ys =>
          have hl : (x :: xs).takeWhile (fitKeep b (sumPrices (x :: xs))) ++ (y :: ys) = x :: xs := by
            rw [← hdrop]
            exact List.takeWhile_append_dropWhile _ _
          have hs : specRemoveOne b (x :: xs) =
              (x :: xs).takeWhile (fitKeep b (sumPrices (x :: xs))) ++ ys := by
            simp [specRemoveOne, hdrop]
          have hsum : sumPrices (x :: xs) - y.estimated_price =
              sumPrices ((x :: xs).takeWhile (fitKeep b (sumPrices (x :: xs))) ++ ys) := by
            have h1 : sumPrices ((x :: xs).takeWhile (fitKeep b (sumPrices (x :: xs)))) +
                sumPrices (y :: ys) = sumPrices (x :: xs) := by
              rw [← sumPrices_append, hl]
            have h2 : sumPrices (y :: ys) = y.estimated_price + sumPrices ys :=
              sumPrices_cons _ _
            rw [sumPrices_append]
            linarith
          dsimp only
          rw [hs, hsum]
          exact ih _

lemma specRemoveOne_length (b : ℚ) {items : List ShoppingItem} (h : items ≠ []) :
    (specRemoveOne b items).length + 1 = items.length := by
  unfold specRemoveOne
  cases hdrop : items.dropWhile (fitKeep b (sumPrices items)) with
  | nil =>
    cases items with
    | nil => exact absurd rfl h
    | cons x xs => simp
  | cons y ys =>
    have hl := List.takeWhile_append_dropWhile (l := items) (p := fitKeep b (sumPrices items))
    rw [hdrop] at hl
    have hlen := congrArg List.length hl
    simp only [List.length_append, List.length_cons] at hlen
    simp only [List.length_append]
    omega

lemma fitLoop_fuel_stable (b : ℚ) :
    ∀ (fuel : Nat) (l : List ShoppingItem) (total : ℚ),
      l.length ≤ fuel → fitLoop b fuel l total = fitLoop b l.length l total := by
  intro fuel
  induction fuel with
  | zero =>
    intro l total h
    have : l = [] := List.length_eq_zero.mp (Nat.le_zero.mp h)
    subst this
    rfl
  | succ n ih =>
    intro l total h
    cases l with
    | nil => by_cases hle : total ≤ b <;> simp [fitLoop, hle]
    | cons x xs =>
      have hxs : xs.length ≤ n := by
        simpa using Nat.succ_le_succ_iff.mp (by simpa using h)
      by_cases hle : total ≤ b
      · simp [fitLoop, hle]
      · simp only [List.length_cons, fitLoop]
        rw [if_neg hle, if_neg hle]
        cases hf : findRemove b total (x :: xs) with
        | none =>
          dsimp only
          exact ih xs (total - x.estimated_price) hxs
        | some q =>
          obtain ⟨ys, t⟩ := q
          dsimp only
          have hlen : ys.length + 1 = (x :: xs).length := findRemove_length b total hf
          have hylen : ys.length = xs.length := by
            simp only [List.length_cons] at hlen
            omega
          rw [ih ys t (by omega), hylen]

/-- C5: the removal phase sorts a working copy by price descending with a
stable tie-break, then repeatedly removes the first item whose single
removal brings the running total to at most the budget (else the item at
position 0), recomputing the total each time; each iteration removes
exactly one item and fuel equal to the list length suffices, so the loop
terminates. -/
theorem C5_greedy_removal_step_rule :
    (∀ (items : List ShoppingItem) (budget : ℚ),
        removal_phase items budget = spec_removal_phase items budget)
    ∧ (∀ items : List ShoppingItem,
        (sorted_desc items).Pairwise (fun a b => b.estimated_price ≤ a.estimated_price))
    ∧ (∀ (p : ℚ) (items : List ShoppingItem),
        (sorted_desc items).filter (fun it => decide (it.estimated_price = p)) =
          items.filter (fun it => decide (it.estimated_price = p)))
    ∧ (∀ (budget : ℚ) (items : List ShoppingItem), items ≠ [] →
        (specRemoveOne budget items).length + 1 = items.length)
    ∧ (∀ (budget : ℚ) (fuel : Nat) (items : List ShoppingItem) (total : ℚ),
        items.length ≤ fuel →
          fitLoop budget fuel items total = fitLoop budget items.length items total) := by
  refine ⟨?_, ?_, ?_, ?_, ?_⟩
  · intro items budget
    unfold removal_phase removal_phase_full spec_removal_phase
    rw [fitLoop_eq_specFitLoop budget (sorted_desc items).length (sorted_desc items)]
  · intro items
    exact pairwise_sortAux items [] (by simp)
  · intro p items
    simpa using filter_sortAux p items [] (by simp)
  · intro b items h
    exact specRemoveOne_length b h
  · intro b fuel items total h
    exact fitLoop_fuel_stable b fuel items total h

/-- Witness for C5: the one-removal and fuel-stability conjuncts at a
concrete one-item list. -/
theorem C5_greedy_removal_step_rule_witness :
    (specRemoveOne 0 [demoItem]).length + 1 = ([demoItem] : List ShoppingItem).length
    ∧ fitLoop 0 5 [demoItem] 4 = fitLoop 0 ([demoItem] : List ShoppingItem).length [demoItem] 4 :=
  ⟨C5_greedy_removal_step_rule.2.2.2.1 0 [demoItem] (by decide),
   C5_greedy_removal_step_rule.2.2.2.2 0 5 [demoItem] 4 (by decide)⟩

/-! ### C1 and C3: the substitution table can raise prices -/

/-- C1 (failing input): on a Record with `budget = 3` and items
`[Caviar $10, Beef Scraps $1]` (total `11 > 3`), the Budget handler runs
the fitting algorithm, the greedy removal keeps `Beef Scraps` at total
`1 ≤ 3`, but the substitution table then sets its price to the flat
`5.99`, so the resulting `total_cost = 5.99 > 3` with a non-empty item
list: the claimed postcondition `total_cost ≤ budget ∨ line_items = []`
fails on the code. -/
theorem C1_budget_fitting_postcondition_violated :
    (budgeting_execute genOk overBudgetState).total_cost = 599 / 100
    ∧ (budgeting_execute genOk overBudgetState).shopping_items ≠ []
    ∧ ¬((budgeting_execute genOk overBudgetState).total_cost ≤ 3
          ∨ (budgeting_execute genOk overBudgetState).shopping_items = []) := by
  refine ⟨by decide, by decide, ?_⟩
  rintro (h | h)
  · revert h; decide
  · revert h; decide

/-- C3 (failing input): `_optimize_for_budget` on `[Beef $1, Beef $1]`
with budget `1` removes one item (running total `1 ≤ 1`) and then the
substitution table raises the survivor's price to `5.99`, so the output
total `5.99` exceeds the input total `2`: total cost is not monotonically
non-increasing (the item count, here `1 ≤ 2`, did not increase). -/
theorem C3_budget_fitting_cost_increase :
    sumPrices (optimize_for_budget [beefItem, beefItem] 1) = 599 / 100
    ∧ sumPrices [beefItem, beefItem] = 2
    ∧ ¬(sumPrices (optimize_for_budget [beefItem, beefItem] 1) ≤ sumPrices [beefItem, beefItem])
    ∧ (optimize_for_budget [beefItem, beefItem] 1).length ≤ ([beefItem, beefItem] : List ShoppingItem).length := by
  refine ⟨by decide, by decide, ?_, by decide⟩
  intro h
  revert h; decide

/-! ### C9: budget `0` is treated as no budget -/

/-- C9: whenever `budget = 0` (falsy in Python), the Budget handler takes
the no-budget pass-through branch: items and total are unchanged (even if
the total is positive), `next_agent` becomes `finalizer`, the stage is
marked completed, and the fitting algorithm never runs. -/
theorem C9_zero_budget_passthrough (gen : Gen) (s : ShoppingState) (h : s.budget = some 0) :
    (budgeting_execute gen s).shopping_items = s.shopping_items
    ∧ (budgeting_execute gen s).total_cost = s.total_cost
    ∧ (budgeting_execute gen s).next_agent = "finalizer"
    ∧ (budgeting_execute gen s).completed_agents = completed_after "budgeting" s.completed_agents
    ∧ (budgeting_execute gen s).messages = s.messages ++
        ["budgeting: Analyzing budget constraints",
         "budgeting: No budget specified, proceeding without optimization"] := by
  unfold budgeting_execute
  simp [h, log_execution, mark_completed, handle_error]

/-- Witness for C9: a Record with `budget = some 0` and positive total
passes through unchanged. -/
theorem C9_zero_budget_passthrough_witness :
    zeroBudgetState.budget = some 0
    ∧ zeroBudgetState.total_cost = 4
    ∧ (budgeting_execute genOk zeroBudgetState).shopping_items = zeroBudgetState.shopping_items
    ∧ (budgeting_execute genOk zeroBudgetState).total_cost = zeroBudgetState.total_cost
    ∧ (budgeting_execute genOk zeroBudgetState).next_agent = "finalizer" :=
  ⟨rfl, rfl,
   (C9_zero_budget_passthrough genOk zeroBudgetState rfl).1,
   (C9_zero_budget_passthrough genOk zeroBudgetState rfl).2.1,
   (C9_zero_budget_passthrough genOk zeroBudgetState rfl).2.2.1⟩

/-! ### C4: `total_cost` always equals the sum of the line-item prices -/

/-- C4: if a Record satisfies the invariant
`total_cost = Σ line_items[i].price`, then the two handlers that mutate
the line-item list (ProductMap and Budget) both return Records that still
satisfy it (on the mutating paths they recompute the sum; on all other
paths they leave both fields unchanged). -/
theorem C4_total_cost_invariant (gen : Gen) (cfg : PFConfig) (walmart mistral : Mapper)
    (s : ShoppingState) (h : s.total_cost = sumPrices s.shopping_items) :
    (product_finder_execute cfg walmart mistral s).total_cost =
      sumPrices (product_finder_execute cfg walmart mistral s).shopping_items
    ∧ (budgeting_execute gen s).total_cost =
      sumPrices (budgeting_execute gen s).shopping_items := by
  constructor
  · simp only [product_finder_execute]
    split
    · simpa [log_execution, handle_error] using h
    · split
      · simpa [log_execution, handle_error] using h
      · split <;> split <;>
          simp_all [log_execution, handle_error, mark_completed]
  · simp only [budgeting_execute]
    split
    · simpa [log_execution, mark_completed] using h
    · split <;> split <;>
        simp_all [log_execution, mark_completed, handle_error]

/-- Witness for C4 at a concrete Record satisfying the invariant. -/
theorem C4_total_cost_invariant_witness :
    zeroBudgetState.total_cost = sumPrices zeroBudgetState.shopping_items
    ∧ (budgeting_execute genOk zeroBudgetState).total_cost =
        sumPrices (budgeting_execute genOk zeroBudgetState).shopping_items :=
  ⟨by decide,
   (C4_total_cost_invariant genOk ⟨false⟩ (fun _ => .error "x") (fun _ => .error "x")
      zeroBudgetState (by decide)).2⟩

/-! ### C7: the Finalize handler is total -/

/-- C7: for every generator outcome and every input Record, the Finalize
handler sets `final_list` to some string and `next_agent = "complete"`
(it never routes to the error marker); when the generator call raises and
items are present, `final_list` is exactly the deterministic fallback
text built from the Record. -/
theorem C7_finalize_totality (gen : Gen) (s : ShoppingState) :
    (finalizer_execute gen s).next_agent = "complete"
    ∧ ((finalizer_execute gen s).final_list).isSome
    ∧ (∀ e : String, s.shopping_items ≠ [] →
        (finalizer_execute (fun _ => Except.error e) s).final_list =
          some (create_fallback_list s)) := by
  refine ⟨?_, ?_, ?_⟩
  · simp only [finalizer_execute]
    split
    · simp [log_execution, mark_completed]
    · split <;> simp [log_execution, mark_completed, handle_error]
  · simp only [finalizer_execute]
    split
    · simp [log_execution, mark_completed]
    · split <;> simp [log_execution, mark_completed, handle_error]
  · intro e hne
    simp only [finalizer_execute]
    rw [if_neg (by simpa [log_execution] using hne)]
    simp [log_execution, handle_error, create_fallback_list]

/-- Witness for C7: a failing generator on a Record with one item yields
exactly the fallback text. -/
theorem C7_finalize_totality_witness :
    (finalizer_execute (fun _ => Except.error "LLM error") zeroBudgetState).final_list =
      some (create_fallback_list zeroBudgetState) :=
  (C7_finalize_totality genOk zeroBudgetState).2.2 "LLM error" (by decide)

/-! ### C8: ProductMap fails immediately on empty ingredients -/

/-- C8: when the ingredients list is empty, the ProductMap handler
records an error, sets `next_agent = "error"`, leaves `line_items` and
`total_cost` unchanged, and consults neither the price-lookup oracle nor
the generator-backed mapper (the result is independent of both). -/
theorem C8_product_map_empty_input (cfg : PFConfig) (w₁ m₁ w₂ m₂ : Mapper)
    (s : ShoppingState) (h : s.ingredients = []) :
    (product_finder_execute cfg w₁ m₁ s).next_agent = "error"
    ∧ (product_finder_execute cfg w₁ m₁ s).shopping_items = s.shopping_items
    ∧ (product_finder_execute cfg w₁ m₁ s).total_cost = s.total_cost
    ∧ (product_finder_execute cfg w₁ m₁ s).errors =
        s.errors ++ ["product_finder: No ingredients found to map"]
    ∧ product_finder_execute cfg w₁ m₁ s = product_finder_execute cfg w₂ m₂ s := by
  have hcond : (log_execution "product_finder"
      ("Mapping ingredients to products (SerpAPI: " ++ pyBool cfg.use_real_store ++ ")")
      s).ingredients = [] := h
  simp only [product_finder_execute]
  rw [if_pos hcond, if_pos hcond]
  simp [log_execution, handle_error]

/-- Witness for C8: the initial Record (empty ingredients) makes
ProductMap fail identically under different oracles. -/
theorem C8_product_map_empty_input_witness :
    (product_finder_execute ⟨true⟩ (fun _ => .ok [demoItem]) (fun _ => .ok [demoItem])
        initState).next_agent = "error"
    ∧ product_finder_execute ⟨true⟩ (fun _ => .ok [demoItem]) (fun _ => .ok [demoItem]) initState
        = product_finder_execute ⟨true⟩ (fun _ => .error "boom") (fun _ => .error "boom") initState :=
  ⟨(C8_product_map_empty_input ⟨true⟩ (fun _ => .ok [demoItem]) (fun _ => .ok [demoItem])
      (fun _ => .error "boom") (fun _ => .error "boom") initState rfl).1,
   (C8_product_map_empty_input ⟨true⟩ (fun _ => .ok [demoItem]) (fun _ => .ok [demoItem])
      (fun _ => .error "boom") (fun _ => .error "boom") initState rfl).2.2.2.2⟩

/-! ### C2: the error marker does not stop the pipeline -/

lemma append_prefix_cons (l : List String) (a : String) (t : List String) :
    l ++ [a] <+: l ++ a :: t :=
  ⟨t, by simp⟩

lemma planner_messages (gen : Gen) (s : ShoppingState) :
    s.messages ++ ["planner: Creating execution plan"] <+: (planner_execute gen s).messages := by
  simp only [planner_execute]
  split <;>
    first
      | (simp [log_execution, handle_error, mark_completed]
         first
           | exact List.prefix_rfl
           | exact append_prefix_cons _ _ _)
      | simp [log_execution, handle_error, mark_completed]

lemma recipe_messages (gen : Gen) (jp : String → JsonParse) (s : ShoppingState) :
    s.messages ++ ["recipe: Finding suitable recipe via Mistral API"] <+:
      (recipe_execute gen jp s).messages := by
  simp only [recipe_execute]
  split
  case _ =>
    first
      | (simp [log_execution, handle_error, mark_completed]
         first
           | exact List.prefix_rfl
           | exact append_prefix_cons _ _ _)
      | simp [log_execution, handle_error, mark_completed]
  case _ =>
    split
    case _ =>
      first
        | (simp [log_execution, handle_error, mark_completed]
           first
             | exact List.prefix_rfl
             | exact append_prefix_cons _ _ _)
        | simp [log_execution, handle_error, mark_completed]
    case _ =>
      split <;> split <;> (try split) <;>
        first
          | (simp [log_execution, handle_error, mark_completed]
             first
               | exact List.prefix_rfl
               | exact append_prefix_cons _ _ _)
          | simp [log_execution, handle_error, mark_completed]

lemma pf_messages (cfg : PFConfig) (walmart mistral : Mapper) (s : ShoppingState) :
    s.messages ++ ["product_finder: " ++ ("Mapping ingredients to products (SerpAPI: " ++
        pyBool cfg.use_real_store ++ ")")] <+:
      (product_finder_execute cfg walmart mistral s).messages := by
  simp only [product_finder_execute]
  split
  case _ =>
    first
      | (simp [log_execution, handle_error, mark_completed]
         first
           | exact List.prefix_rfl
           | exact append_prefix_cons _ _ _)
      | simp [log_execution, handle_error, mark_completed]
  case _ =>
    split
    case _ =>
      first
        | (simp [log_execution, handle_error, mark_completed]
           first
             | exact List.prefix_rfl
             | exact append_prefix_cons _ _ _)
        | simp [log_execution, handle_error, mark_completed]
    case _ =>
      split <;> split <;> (try split) <;>
        first
          | (simp [log_execution, handle_error, mark_completed]
             first
               | exact List.prefix_rfl
               | exact append_prefix_cons _ _ _)
          | simp [log_execution, handle_error, mark_completed]

lemma budgeting_messages (gen : Gen) (s : ShoppingState) :
    s.messages ++ ["budgeting: Analyzing budget constraints"] <+:
      (budgeting_execute gen s).messages := by
  simp only [budgeting_execute]
  split
  case _ =>
    first
      | (simp [log_execution, handle_error, mark_completed]
         first
           | exact List.prefix_rfl
           | exact append_prefix_cons _ _ _)
      | simp [log_execution, handle_error, mark_completed]
  case _ =>
    split <;> split <;> (try split) <;>
      first
        | (simp [log_execution, handle_error, mark_completed]
           first
             | exact List.prefix_rfl
             | exact append_prefix_cons _ _ _)
        | simp [log_execution, handle_error, mark_completed]

lemma finalizer_messages (gen : Gen) (s : ShoppingState) :
    s.messages ++ ["finalizer: Creating final shopping list"] <+:
      (finalizer_execute gen s).messages := by
  simp only [finalizer_execute]
  split
  case _ =>
    first
      | (simp [log_execution, handle_error, mark_completed]
         first
           | exact List.prefix_rfl
           | exact append_prefix_cons _ _ _)
      | simp [log_execution, handle_error, mark_completed]
  case _ =>
    split <;> (try split) <;>
      first
        | (simp [log_execution, handle_error, mark_completed]
           first
             | exact List.prefix_rfl
             | exact append_prefix_cons _ _ _)
        | simp [log_execution, handle_error, mark_completed]

/-- C2 counterexample: with a generator whose every call raises and a
fresh initial Record, the Planner handler sets `next_agent = "error"`,
yet the full graph run still executes — and even completes — the
Budgeting and Finalizer stages afterwards, because the compiled graph's
edges are unconditional. -/
theorem C2_error_absorption_counterexample :
    (planner_execute genFailAll initState).next_agent = "error"
    ∧ "budgeting" ∈ (graph_run genFailAll jpSoft ⟨false⟩ (fun _ => .error "x")
        (fun _ => .error "x") initState).completed_agents
    ∧ "finalizer" ∈ (graph_run genFailAll jpSoft ⟨false⟩ (fun _ => .error "x")
        (fun _ => .error "x") initState).completed_agents := by
  decide

/-- C2 (amended): the orchestrator's compiled graph is a linear chain
with unconditional edges that never consults `next_agent`, so the error
marker is not absorbing: in every run, all five stage handlers execute
(each one's start log message appears in the final Record), regardless of
any handler routing to the error marker. -/
theorem C2_error_not_absorbing (gen : Gen) (jp : String → JsonParse) (cfg : PFConfig)
    (walmart mistral : Mapper) (s : ShoppingState) :
    "planner: Creating execution plan" ∈ (graph_run gen jp cfg walmart mistral s).messages
    ∧ "recipe: Finding suitable recipe via Mistral API" ∈
        (graph_run gen jp cfg walmart mistral s).messages
    ∧ ("product_finder: " ++ ("Mapping ingredients to products (SerpAPI: " ++
        pyBool cfg.use_real_store ++ ")")) ∈ (graph_run gen jp cfg walmart mistral s).messages
    ∧ "budgeting: Analyzing budget constraints" ∈ (graph_run gen jp cfg walmart mistral s).messages
    ∧ "finalizer: Creating final shopping list" ∈ (graph_run gen jp cfg walmart mistral s).messages := by
  have start_mem : ∀ (l : List String) (a : String) (l' : List String),
      l ++ [a] <+: l' → a ∈ l' :=
    fun l a l' hp => hp.subset (List.mem_append_right _ (List.mem_singleton_self _))
  have lift_mem : ∀ (l : List String) (a : String) (l' : List String) (m : String),
      l ++ [a] <+: l' → m ∈ l → m ∈ l' :=
    fun l a l' m hp hm => hp.subset (List.mem_append_left _ hm)
  have h1 := planner_messages gen s
  have h2 := recipe_messages gen jp (planner_execute gen s)
  have h3 := pf_messages cfg walmart mistral (recipe_execute gen jp (planner_execute gen s))
  have h4 := budgeting_messages gen
    (product_finder_execute cfg walmart mistral (recipe_execute gen jp (planner_execute gen s)))
  have h5 := finalizer_messages gen
    (budgeting_execute gen
      (product_finder_execute cfg walmart mistral (recipe_execute gen jp (planner_execute gen s))))
  have key : ∀ msg : String,
      msg ∈ (graph_invoke gen jp cfg walmart mistral s).messages →
      msg ∈ (graph_run gen jp cfg walmart mistral s).messages := by
    intro msg hmsg
    simp only [graph_run]
    split <;> simp_all
  refine ⟨key _ ?_, key _ ?_, key _ ?_, key _ ?_, key _ ?_⟩
  · exact lift_mem _ _ _ _ h5 (lift_mem _ _ _ _ h4 (lift_mem _ _ _ _ h3
      (lift_mem _ _ _ _ h2 (start_mem _ _ _ h1))))
  · exact lift_mem _ _ _ _ h5 (lift_mem _ _ _ _ h4 (lift_mem _ _ _ _ h3
      (start_mem _ _ _ h2)))
  · exact lift_mem _ _ _ _ h5 (lift_mem _ _ _ _ h4 (start_mem _ _ _ h3))
  · exact lift_mem _ _ _ _ h5 (start_mem _ _ _ h4)
  · exact start_mem _ _ _ h5

/-! ### C10: `completed_agents` is append-only with unique entries -/

lemma completed_after_extends (n : String) (l : List String) : l <+: completed_after n l := by
  unfold completed_after
  split
  · exact List.prefix_rfl
  · exact List.prefix_append _ _

lemma completed_after_nodup (n : String) {l : List String} (h : l.Nodup) :
    (completed_after n l).Nodup := by
  unfold completed_after
  split
  · exact h
  · simpa [List.nodup_append] using ⟨h, by assumption⟩

lemma planner_completed (gen : Gen) (s : ShoppingState) :
    (planner_execute gen s).completed_agents = s.completed_agents ∨
    (planner_execute gen s).completed_agents = completed_after "planner" s.completed_agents := by
  simp only [planner_execute]
  split
  · simp [log_execution, handle_error, mark_completed, apply_ite]
  · simp [log_execution, handle_error, mark_completed, apply_ite]

lemma recipe_completed (gen : Gen) (jp : String → JsonParse) (s : ShoppingState) :
    (recipe_execute gen jp s).completed_agents = s.completed_agents ∨
    (recipe_execute gen jp s).completed_agents = completed_after "recipe" s.completed_agents := by
  simp only [recipe_execute]
  split
  · simp [log_execution, handle_error, mark_completed, apply_ite]
  · split
    · simp [log_execution, handle_error, mark_completed, apply_ite]
    · split
      · split <;> simp [log_execution, handle_error, mark_completed, apply_ite]
      · split <;> simp [log_execution, handle_error, mark_completed, apply_ite]

lemma pf_completed (cfg : PFConfig) (walmart mistral : Mapper) (s : ShoppingState) :
    (product_finder_execute cfg walmart mistral s).completed_agents = s.completed_agents ∨
    (product_finder_execute cfg walmart mistral s).completed_agents =
      completed_after "product_finder" s.completed_agents := by
  simp only [product_finder_execute]
  split
  · simp [log_execution, handle_error, mark_completed, apply_ite]
  · split
    · simp [log_execution, handle_error, mark_completed, apply_ite]
    · split <;> split <;>
        simp [log_execution, handle_error, mark_completed, apply_ite]

lemma budgeting_completed (gen : Gen) (s : ShoppingState) :
    (budgeting_execute gen s).completed_agents = s.completed_agents ∨
    (budgeting_execute gen s).completed_agents =
      completed_after "budgeting" s.completed_agents := by
  simp only [budgeting_execute]
  split
  · simp [log_execution, handle_error, mark_completed, apply_ite]
  · split <;> split <;>
      simp [log_execution, handle_error, mark_completed, apply_ite]

lemma finalizer_completed (gen : Gen) (s : ShoppingState) :
    (finalizer_execute gen s).completed_agents = s.completed_agents ∨
    (finalizer_execute gen s).completed_agents =
      completed_after "finalizer" s.completed_agents := by
  simp only [finalizer_execute]
  split
  · simp [log_execution, handle_error, mark_completed, apply_ite]
  · split
    · simp [log_execution, handle_error, mark_completed, apply_ite]
    · simp [log_execution, handle_error, mark_completed, apply_ite]

lemma handler_completed_step {gen : Gen} {jp : String → JsonParse} {cfg : PFConfig}
    {walmart mistral : Mapper} {h : ShoppingState → ShoppingState}
    (hh : h ∈ handlersList gen jp cfg walmart mistral) (s : ShoppingState) :
    s.completed_agents <+: (h s).completed_agents ∧
    (s.completed_agents.Nodup → (h s).completed_agents.Nodup) := by
  have reduce : ∀ (name : String),
      ((h s).completed_agents = s.completed_agents ∨
        (h s).completed_agents = completed_after name s.completed_agents) →
      s.completed_agents <+: (h s).completed_agents ∧
      (s.completed_agents.Nodup → (h s).completed_agents.Nodup) := by
    rintro name (heq | heq) <;> rw [heq]
    · exact ⟨List.prefix_rfl, fun hn => hn⟩
    · exact ⟨completed_after_extends _ _, fun hn => completed_after_nodup _ hn⟩
  simp only [handlersList, List.mem_cons, List.mem_singleton] at hh
  rcases hh with rfl | rfl | rfl | rfl | rfl | hh
  · exact reduce _ (planner_completed gen s)
  · exact reduce _ (recipe_completed gen jp s)
  · exact reduce _ (pf_completed cfg walmart mistral s)
  · exact reduce _ (budgeting_completed gen s)
  · exact reduce _ (finalizer_completed gen s)
  · simp at hh

/-- C10: along every sequence of stage-handler executions,
`completed_agents` is only ever appended to (the input list is a prefix
of the output list), distinctness of stage names is preserved, and
marking an already-completed stage leaves the Record unchanged. -/
theorem C10_completed_stages_append_once (gen : Gen) (jp : String → JsonParse) (cfg : PFConfig)
    (walmart mistral : Mapper) (hs : List (ShoppingState → ShoppingState))
    (hmem : ∀ h ∈ hs, h ∈ handlersList gen jp cfg walmart mistral) (s : ShoppingState) :
    s.completed_agents <+: (applySeq hs s).completed_agents
    ∧ (s.completed_agents.Nodup → (applySeq hs s).completed_agents.Nodup)
    ∧ (∀ (n : String) (s' : ShoppingState), n ∈ s'.completed_agents →
        mark_completed n s' = s') := by
  refine ⟨?_, ?_, ?_⟩
  · induction hs generalizing s with
    | nil => exact List.prefix_rfl
    | cons h hs ih =>
      have hstep := handler_completed_step (hmem h (by simp)) s
      have hrest := ih (fun g hg => hmem g (by simp [hg])) (h s)
      exact hstep.1.trans hrest
  · induction hs generalizing s with
    | nil => exact fun hn => hn
    | cons h hs ih =>
      intro hn
      have hstep := handler_completed_step (hmem h (by simp)) s
      exact ih (fun g hg => hmem g (by simp [hg])) (h s) (hstep.2 hn)
  · intro n s' hn
    simp [mark_completed, completed_after, hn]

/-- Witness for C10: one planner execution from the initial Record. -/
theorem C10_completed_stages_append_once_witness :
    initState.completed_agents <+:
      (applySeq [planner_execute genOk] initState).completed_agents
    ∧ ((applySeq [planner_execute genOk] initState).completed_agents).Nodup := by
  have h := C10_completed_stages_append_once genOk jpSoft ⟨false⟩
    (fun _ => .error "x") (fun _ => .error "x") [planner_execute genOk]
    (by intro g hg; simp only [List.mem_singleton] at hg; subst hg; simp [handlersList])
    initState
  exact ⟨h.1, h.2.1 (by decide)⟩

end Grocery
